import Mathlib

/-!
Verification of the page-composition and document-assembly pipeline of the
PDFbhai repository (`pdfUtils.ts`): the per-pixel filter transform
(`applyFiltersToContext`), the page compositor canvas sizing
(`processPageImage`), the N-up chunking, grid lookup and cell placement
math of `generateFinalPdf`, and the encoder-call discipline of the
assembler, embedded shallowly over rational arithmetic.
-/

/-- Filter configuration of a page item (`PageItem.filters` in the source):
`invert`, `grayscale` booleans and `whiteness`, `blackness` numbers. -/
structure Filters where
  invert : Bool
  grayscale : Bool
  whiteness : ℚ
  blackness : ℚ
deriving DecidableEq

/-- One RGBA sample quadruple of the flat `ImageData.data` array. -/
structure RGBA where
  r : ℚ
  g : ℚ
  b : ℚ
  a : ℚ
deriving DecidableEq

/-- Per-pixel body of the loop in `applyFiltersToContext` (source lines
84-113): grayscale luma, invert, brightness multiply, contrast with
mid-gray intercept, then clamp each RGB channel to [0, 255]; the alpha
sample `data[i+3]` is never written. -/
def applyFilterPixel (filters : Filters) (p : RGBA) : RGBA :=
  let brightnessMult : ℚ := 1 + filters.whiteness / 100
  let contrastMult : ℚ := 1 + filters.blackness / 100
  let intercept : ℚ := 128 * (1 - contrastMult)
  let r0 := p.r
  let g0 := p.g
  let b0 := p.b
  let r1 := if filters.grayscale then 0.299 * r0 + 0.587 * g0 + 0.114 * b0 else r0
  let g1 := if filters.grayscale then 0.299 * r0 + 0.587 * g0 + 0.114 * b0 else g0
  let b1 := if filters.grayscale then 0.299 * r0 + 0.587 * g0 + 0.114 * b0 else b0
  let r2 := if filters.invert then 255 - r1 else r1
  let g2 := if filters.invert then 255 - g1 else g1
  let b2 := if filters.invert then 255 - b1 else b1
  let r3 := r2 * brightnessMult
  let g3 := g2 * brightnessMult
  let b3 := b2 * brightnessMult
  let r4 := r3 * contrastMult + intercept
  let g4 := g3 * contrastMult + intercept
  let b4 := b3 * contrastMult + intercept
  { r := min 255 (max 0 r4)
    g := min 255 (max 0 g4)
    b := min 255 (max 0 b4)
    a := p.a }

/-- `applyFiltersToContext` (source lines 69-116): reads the image data,
transforms every RGBA quadruple with the per-pixel loop body, and writes
the result back; modelled as a pure map over the pixel list. -/
def applyFiltersToContext (filters : Filters) (data : List RGBA) : List RGBA :=
  data.map (applyFilterPixel filters)

/-- Spec-side step 1 (modelled from the spec words): if `grayscale`,
replace (r,g,b) with luma Y = 0.299r + 0.587g + 0.114b in all channels. -/
def specGrayscaleStep (grayscale : Bool) (c : ℚ × ℚ × ℚ) : ℚ × ℚ × ℚ :=
  if grayscale then
    let y := 0.299 * c.1 + 0.587 * c.2.1 + 0.114 * c.2.2
    (y, y, y)
  else c

/-- Spec-side step 2: if `invert`, replace each channel c with 255 - c. -/
def specInvertStep (invert : Bool) (c : ℚ × ℚ × ℚ) : ℚ × ℚ × ℚ :=
  if invert then (255 - c.1, 255 - c.2.1, 255 - c.2.2) else c

/-- Spec-side step 3: multiply each channel by (1 + whiteness/100). -/
def specBrightnessStep (whiteness : ℚ) (c : ℚ × ℚ × ℚ) : ℚ × ℚ × ℚ :=
  (c.1 * (1 + whiteness / 100), c.2.1 * (1 + whiteness / 100),
    c.2.2 * (1 + whiteness / 100))

/-- Spec-side step 4: replace each channel c by
c*(1 + blackness/100) + 128*(1 - (1 + blackness/100)). -/
def specContrastStep (blackness : ℚ) (c : ℚ × ℚ × ℚ) : ℚ × ℚ × ℚ :=
  (c.1 * (1 + blackness / 100) + 128 * (1 - (1 + blackness / 100)),
    c.2.1 * (1 + blackness / 100) + 128 * (1 - (1 + blackness / 100)),
    c.2.2 * (1 + blackness / 100) + 128 * (1 - (1 + blackness / 100)))

/-- Spec-side step 5: clamp each channel to [0, 255]. -/
def specClampStep (c : ℚ × ℚ × ℚ) : ℚ × ℚ × ℚ :=
  (min 255 (max 0 c.1), min 255 (max 0 c.2.1), min 255 (max 0 c.2.2))

/-- The neutral filter configuration: no invert, no grayscale, zero
whiteness and blackness. -/
def neutralFilters : Filters :=
  { invert := false, grayscale := false, whiteness := 0, blackness := 0 }

/-- Invert-only filter configuration, all other filters neutral. -/
def invertOnlyFilters : Filters :=
  { invert := true, grayscale := false, whiteness := 0, blackness := 0 }

/-- A pixel whose RGB channels all lie in the byte range [0, 255], as
every sample read from an `ImageData` buffer does. -/
def RGBA.InByteRange (p : RGBA) : Prop :=
  0 ≤ p.r ∧ p.r ≤ 255 ∧ 0 ≤ p.g ∧ p.g ≤ 255 ∧ 0 ≤ p.b ∧ p.b ≤ 255

instance (p : RGBA) : Decidable p.InByteRange := by
  unfold RGBA.InByteRange; infer_instance

/-- One unit of output content (`PageItem` in `types.ts`): a selectable,
rotatable, filterable, annotatable reference to one page of one source
file; `drawingDataUrl` abstracts the optional doodle overlay. -/
structure PageItem where
  id : Nat
  fileId : Nat
  originalPageIndex : Nat
  isSelected : Bool
  rotation : Nat
  filters : Filters
  drawingDataUrl : Option Nat
deriving DecidableEq

/-- Global layout configuration (`LayoutSettings` in `types.ts`): `nUp`
pages per output sheet, cell borders, page numbers. -/
structure LayoutSettings where
  nUp : Nat
  showBorders : Bool
  showPageNumbers : Bool
deriving DecidableEq

/-- A4 sheet width in points, `PAGE_WIDTH` (source line 208): the source
literal 595.28, written as an exact fraction. -/
def PAGE_WIDTH : ℚ := 59528 / 100

/-- A4 sheet height in points, `PAGE_HEIGHT` (source line 209): the
source literal 841.89, written as an exact fraction. -/
def PAGE_HEIGHT : ℚ := 84189 / 100

/-- Outer sheet margin in points, `MARGIN` (source line 210). -/
def MARGIN : ℚ := 20

/-- Canvas sizing of `processPageImage` (source lines 149-153): the
working canvas gets the rasterized page's width and height swapped when
the rotation is 90 or 270 degrees, else keeps them. -/
def processPageImageCanvasSize (pageItem : PageItem) (width height : ℚ) :
    ℚ × ℚ :=
  if pageItem.rotation = 90 ∨ pageItem.rotation = 270 then (height, width)
  else (width, height)

/-- Fuel-indexed worker for the N-up chunking loop of `generateFinalPdf`
(source lines 203-205): each iteration pushes `slice(i, i + n)` and
advances `i` by `n`; `fuel` bounds the number of loop steps and is
sufficient whenever it is at least the list length (the loop advances by
`max n 1` consumed elements per step, which is `n` for every `n ≥ 1`,
the only values the source loop terminates on). -/
def chunkPagesAux (n : Nat) : Nat → List α → List (List α)
  | 0, _ => []
  | _, [] => []
  | fuel + 1, x :: xs =>
    (x :: xs).take n :: chunkPagesAux n fuel ((x :: xs).drop (max n 1))

/-- The N-up chunking of `generateFinalPdf` (source lines 199-205):
contiguous slices of `n` items in document order. -/
def chunkPages (n : Nat) (l : List α) : List (List α) :=
  chunkPagesAux n l.length l

/-- Grid lookup switch of `generateFinalPdf` (source lines 215-230): the
fixed `pagesPerSheet -> (cols, rows)` table with default `(1, 1)`. -/
def gridSwitch (itemsPerPage : Nat) : Nat × Nat :=
  match itemsPerPage with
  | 1 => (1, 1)
  | 2 => (1, 2)
  | 3 => (1, 3)
  | 4 => (2, 2)
  | 5 => (2, 3)
  | 6 => (2, 3)
  | 7 => (2, 4)
  | 8 => (2, 4)
  | _ => (1, 1)

/-- `cellWidth` of `generateFinalPdf` (source line 232). -/
def cellWidthFor (itemsPerPage : Nat) : ℚ :=
  (PAGE_WIDTH - MARGIN * 2) / ((gridSwitch itemsPerPage).1 : ℚ)

/-- `cellHeight` of `generateFinalPdf` (source line 233). -/
def cellHeightFor (itemsPerPage : Nat) : ℚ :=
  (PAGE_HEIGHT - MARGIN * 2) / ((gridSwitch itemsPerPage).2 : ℚ)

/-- Cell placement math of `generateFinalPdf` (source lines 240-256):
grid position of cell `i`, uniform shrink-to-cell scale with the inner
padding of 10 points, centering offsets, and the top-left-origin to
bottom-left-origin conversion for `y`; returns `(x, y, drawWidth,
drawHeight)`. -/
def placement (cols : Nat) (cellWidth cellHeight imgWidth imgHeight : ℚ)
    (i : Nat) : ℚ × ℚ × ℚ × ℚ :=
  let colIndex := i % cols
  let rowIndex := i / cols
  let scaleX := (cellWidth - 10) / imgWidth
  let scaleY := (cellHeight - 10) / imgHeight
  let scale := min scaleX scaleY
  let drawWidth := imgWidth * scale
  let drawHeight := imgHeight * scale
  let x := MARGIN + (colIndex : ℚ) * cellWidth + (cellWidth - drawWidth) / 2
  let y := PAGE_HEIGHT - MARGIN - (((rowIndex : ℚ) + 1) * cellHeight) +
    (cellHeight - drawHeight) / 2
  (x, y, drawWidth, drawHeight)

/-- One call to the external output-document encoder (pdf-lib):
document creation, sheet addition, image embedding, image drawing,
border-rectangle drawing, serialization. -/
inductive EncoderCall where
  | createDocument : EncoderCall
  | addPage : ℚ → ℚ → EncoderCall
  | embedJpg : PageItem → EncoderCall
  | drawImage : ℚ → ℚ → ℚ → ℚ → EncoderCall
  | drawRect : ℚ → ℚ → ℚ → ℚ → EncoderCall
  | save : EncoderCall
deriving DecidableEq

/-- Encoder calls issued for one chunk in the per-chunk loop of
`generateFinalPdf` (source lines 212-276): one `addPage` with the A4
constants, then per item an `embedJpg`, a `drawImage` at the computed
placement, and a `drawRect` of the full cell bounds when borders are on.
`imgDims` abstracts the intrinsic dimensions that `embeddedImage.scale(1)`
reports for the composited image of a page item. -/
def sheetCalls (imgDims : PageItem → ℚ × ℚ) (layout : LayoutSettings)
    (chunk : List PageItem) : List EncoderCall :=
  let itemsPerPage := layout.nUp
  let cols := (gridSwitch itemsPerPage).1
  let cellWidth := cellWidthFor itemsPerPage
  let cellHeight := cellHeightFor itemsPerPage
  EncoderCall.addPage PAGE_WIDTH PAGE_HEIGHT ::
    (chunk.enum.flatMap fun pr =>
      let i := pr.1
      let pageItem := pr.2
      let dims := imgDims pageItem
      let pl := placement cols cellWidth cellHeight dims.1 dims.2 i
      EncoderCall.embedJpg pageItem ::
        EncoderCall.drawImage pl.1 pl.2.1 pl.2.2.1 pl.2.2.2 ::
        (if layout.showBorders then
          [EncoderCall.drawRect (MARGIN + ((i % cols : Nat) : ℚ) * cellWidth)
            (PAGE_HEIGHT - MARGIN - (((i / cols : Nat) : ℚ) + 1) * cellHeight)
            cellWidth cellHeight]
        else []))

/-- `generateFinalPdf` (source lines 118-280), modelled as the result
paired with the ordered trace of encoder calls it performs: it creates
the output document, filters to the selected pages, fails with
"No pages selected" when none remain, and otherwise chunks the active
pages, emits one sheet of calls per chunk, and serializes. -/
def generateFinalPdf (imgDims : PageItem → ℚ × ℚ) (pages : List PageItem)
    (layout : LayoutSettings) : Except String Unit × List EncoderCall :=
  let created := [EncoderCall.createDocument]
  let activePages := pages.filter (fun p => p.isSelected)
  if activePages.length = 0 then
    (Except.error "No pages selected", created)
  else
    (Except.ok (),
      created ++ (chunkPages layout.nUp activePages).flatMap
        (sheetCalls imgDims layout) ++ [EncoderCall.save])

/-- A concrete selected page item used by witnesses. -/
def samplePage : PageItem :=
  { id := 1, fileId := 1, originalPageIndex := 0, isSelected := true,
    rotation := 0, filters := neutralFilters, drawingDataUrl := none }

/-- A concrete unselected page item used by witnesses. -/
def sampleUnselectedPage : PageItem :=
  { id := 2, fileId := 1, originalPageIndex := 1, isSelected := false,
    rotation := 0, filters := neutralFilters, drawingDataUrl := none }

/-- A concrete page item rotated by 90 degrees used by witnesses. -/
def sampleRotatedPage : PageItem :=
  { id := 3, fileId := 1, originalPageIndex := 2, isSelected := true,
    rotation := 90, filters := neutralFilters, drawingDataUrl := none }

theorem applyFilterPixel_neutral (p : RGBA) (hp : p.InByteRange) :
    applyFilterPixel neutralFilters p = p := by
  obtain ⟨h1, h2, h3, h4, h5, h6⟩ := hp
  simp only [applyFilterPixel, neutralFilters]
  norm_num
  rw [max_eq_right h1, min_eq_right h2, max_eq_right h3, min_eq_right h4,
    max_eq_right h5, min_eq_right h6]

theorem applyFilterPixel_invert_invert (p : RGBA) (hp : p.InByteRange) :
    applyFilterPixel invertOnlyFilters (applyFilterPixel invertOnlyFilters p) = p := by
  obtain ⟨h1, h2, h3, h4, h5, h6⟩ := hp
  simp only [applyFilterPixel, invertOnlyFilters]
  norm_num
  have e1 : min 255 (max 0 (255 - p.r)) = 255 - p.r := by
    rw [max_eq_right (by linarith), min_eq_right (by linarith)]
  have e2 : min 255 (max 0 (255 - p.g)) = 255 - p.g := by
    rw [max_eq_right (by linarith), min_eq_right (by linarith)]
  have e3 : min 255 (max 0 (255 - p.b)) = 255 - p.b := by
    rw [max_eq_right (by linarith), min_eq_right (by linarith)]
  rw [e1, e2, e3]
  have f1 : (255 : ℚ) - (255 - p.r) = p.r := by ring
  have f2 : (255 : ℚ) - (255 - p.g) = p.g := by ring
  have f3 : (255 : ℚ) - (255 - p.b) = p.b := by ring
  rw [f1, f2, f3]

/-- C4: for every pixel and every filter configuration, the filter
transform applies grayscale, invert, brightness, contrast and clamp in
exactly this order to the RGB channels, leaves the alpha channel
untouched, and preserves the bitmap dimensions. -/
theorem applyFiltersToContext_matches_spec_pipeline (filters : Filters)
    (data : List RGBA) :
    applyFiltersToContext filters data =
      data.map (fun p =>
        let c := specClampStep (specContrastStep filters.blackness
          (specBrightnessStep filters.whiteness (specInvertStep filters.invert
            (specGrayscaleStep filters.grayscale (p.r, p.g, p.b)))))
        { r := c.1, g := c.2.1, b := c.2.2, a := p.a }) ∧
    (applyFiltersToContext filters data).map RGBA.a = data.map RGBA.a ∧
    (applyFiltersToContext filters data).length = data.length := by
  have hpix : ∀ p : RGBA, applyFilterPixel filters p =
      (let c := specClampStep (specContrastStep filters.blackness
        (specBrightnessStep filters.whiteness (specInvertStep filters.invert
          (specGrayscaleStep filters.grayscale (p.r, p.g, p.b)))))
      { r := c.1, g := c.2.1, b := c.2.2, a := p.a }) := by
    intro p
    cases hg : filters.grayscale <;> cases hi : filters.invert <;>
      simp only [applyFilterPixel, specClampStep, specContrastStep,
        specBrightnessStep, specInvertStep, specGrayscaleStep, hg, hi,
        Bool.false_eq_true, if_false, if_true]
  refine ⟨?_, ?_, ?_⟩
  · unfold applyFiltersToContext
    exact List.map_congr_left fun p _ => hpix p
  · unfold applyFiltersToContext
    rw [List.map_map]
    exact List.map_congr_left fun p _ => rfl
  · unfold applyFiltersToContext
    exact List.length_map _ _

/-- C7: the filter transform with the neutral configuration (no invert,
no grayscale, zero whiteness and blackness) leaves every sample of every
in-range pixel unchanged, exactly. -/
theorem applyFiltersToContext_neutral_id (data : List RGBA)
    (hdata : ∀ p ∈ data, p.InByteRange) :
    applyFiltersToContext neutralFilters data = data := by
  unfold applyFiltersToContext
  calc data.map (applyFilterPixel neutralFilters)
      = data.map id :=
        List.map_congr_left fun p hp => applyFilterPixel_neutral p (hdata p hp)
    _ = data := List.map_id data

/-- C7 witness: the neutral transform is the identity on a concrete
two-pixel bitmap. -/
theorem applyFiltersToContext_neutral_id_witness :
    (∀ p ∈ [RGBA.mk 0 17 255 9, RGBA.mk 128 64 32 255], p.InByteRange) ∧
    applyFiltersToContext neutralFilters
      [RGBA.mk 0 17 255 9, RGBA.mk 128 64 32 255] =
      [RGBA.mk 0 17 255 9, RGBA.mk 128 64 32 255] :=
  ⟨by decide, applyFiltersToContext_neutral_id
    [RGBA.mk 0 17 255 9, RGBA.mk 128 64 32 255] (by decide)⟩

/-- C8: applying the filter transform twice with invert on and all other
filters neutral returns the original in-range bitmap exactly. -/
theorem applyFiltersToContext_invert_involution (data : List RGBA)
    (hdata : ∀ p ∈ data, p.InByteRange) :
    applyFiltersToContext invertOnlyFilters
      (applyFiltersToContext invertOnlyFilters data) = data := by
  unfold applyFiltersToContext
  rw [List.map_map]
  calc data.map (applyFilterPixel invertOnlyFilters ∘ applyFilterPixel invertOnlyFilters)
      = data.map id :=
        List.map_congr_left fun p hp => applyFilterPixel_invert_invert p (hdata p hp)
    _ = data := List.map_id data

/-- C8 witness: the invert round trip restores a concrete bitmap. -/
theorem applyFiltersToContext_invert_involution_witness :
    (∀ p ∈ [RGBA.mk 3 200 255 0, RGBA.mk 0 255 100 42], p.InByteRange) ∧
    applyFiltersToContext invertOnlyFilters (applyFiltersToContext
      invertOnlyFilters [RGBA.mk 3 200 255 0, RGBA.mk 0 255 100 42]) =
      [RGBA.mk 3 200 255 0, RGBA.mk 0 255 100 42] :=
  ⟨by decide, applyFiltersToContext_invert_involution
    [RGBA.mk 3 200 255 0, RGBA.mk 0 255 100 42] (by decide)⟩

/-- C9: every RGB channel of every output pixel of the filter transform
lies within [0, 255], for every filter configuration, including
out-of-range whiteness and blackness values. -/
theorem applyFiltersToContext_output_in_range (filters : Filters)
    (data : List RGBA) (p : RGBA)
    (hp : p ∈ applyFiltersToContext filters data) :
    0 ≤ p.r ∧ p.r ≤ 255 ∧ 0 ≤ p.g ∧ p.g ≤ 255 ∧ 0 ≤ p.b ∧ p.b ≤ 255 := by
  unfold applyFiltersToContext at hp
  obtain ⟨q, _, hq⟩ := List.mem_map.mp hp
  subst hq
  simp only [applyFilterPixel]
  refine ⟨?_, ?_, ?_, ?_, ?_, ?_⟩ <;>
    first
      | exact le_min (by norm_num) (le_max_left 0 _)
      | exact min_le_left _ _

/-- C9 witness: the output channels stay in range at a concrete extreme
configuration (whiteness 1000, blackness -500) and bitmap. -/
theorem applyFiltersToContext_output_in_range_witness :
    applyFilterPixel (Filters.mk true true 1000 (-500)) (RGBA.mk 250 250 250 0) ∈
      applyFiltersToContext (Filters.mk true true 1000 (-500))
        [RGBA.mk 250 250 250 0] ∧
    (0 : ℚ) ≤ (applyFilterPixel (Filters.mk true true 1000 (-500))
        (RGBA.mk 250 250 250 0)).r ∧
      (applyFilterPixel (Filters.mk true true 1000 (-500))
        (RGBA.mk 250 250 250 0)).r ≤ 255 :=
  ⟨by simp [applyFiltersToContext], by
    have h := applyFiltersToContext_output_in_range
      (Filters.mk true true 1000 (-500)) [RGBA.mk 250 250 250 0]
      (applyFilterPixel (Filters.mk true true 1000 (-500))
        (RGBA.mk 250 250 250 0)) (by simp [applyFiltersToContext])
    exact ⟨h.1, h.2.1⟩⟩

theorem groups_count_step (n L : Nat) (hn : 1 ≤ n) (hL : 1 ≤ L) :
    (L + n - 1) / n = (L - n + n - 1) / n + 1 := by
  rcases le_or_lt L n with h | h
  · have h0 : L - n = 0 := Nat.sub_eq_zero_of_le h
    rw [h0]
    have h1 : (0 + n - 1) / n = 0 := Nat.div_eq_of_lt (by omega)
    rw [h1]
    exact Nat.div_eq_of_lt_le (by omega) (by omega)
  · have e1 : L - n + n - 1 = L - 1 := by omega
    rw [e1]
    have e2 : L + n - 1 = (L - 1) + n := by omega
    rw [e2, Nat.add_div_right _ (by omega)]

theorem chunkPagesAux_eq_ranges (n : Nat) (hn : 1 ≤ n) :
    ∀ (fuel : Nat) (l : List α), l.length ≤ fuel →
      chunkPagesAux n fuel l = (List.range ((l.length + n - 1) / n)).map
        (fun j => (l.drop (j * n)).take n) := by
  intro fuel
  induction fuel with
  | zero =>
    intro l hl
    have hnil : l = [] := List.eq_nil_of_length_eq_zero (Nat.le_zero.mp hl)
    subst hnil
    simp [chunkPagesAux, Nat.div_eq_of_lt (by omega : n - 1 < n)]
  | succ fuel ih =>
    intro l hl
    match l with
    | [] => simp [chunkPagesAux, Nat.div_eq_of_lt (by omega : n - 1 < n)]
    | x :: xs =>
      rw [show chunkPagesAux n (fuel + 1) (x :: xs) =
        (x :: xs).take n :: chunkPagesAux n fuel ((x :: xs).drop (max n 1)) from rfl]
      rw [Nat.max_eq_left hn]
      have hdrop : ((x :: xs).drop n).length ≤ fuel := by
        simp only [List.length_drop, List.length_cons]
        simp only [List.length_cons] at hl
        omega
      rw [ih ((x :: xs).drop n) hdrop]
      have hG : ((x :: xs).length + n - 1) / n =
          (((x :: xs).drop n).length + n - 1) / n + 1 := by
        simp only [List.length_drop, List.length_cons]
        exact groups_count_step n (xs.length + 1) hn (by omega)
      rw [hG, List.range_succ_eq_map, List.map_cons]
      congr 1
      · simp
      · rw [List.map_map]
        apply List.map_congr_left
        intro j hj
        show (((x :: xs).drop n).drop (j * n)).take n =
          ((x :: xs).drop (Nat.succ j * n)).take n
        rw [List.drop_drop, Nat.succ_mul, Nat.add_comm n (j * n)]

theorem chunkPages_eq_ranges (n : Nat) (hn : 1 ≤ n) (l : List α) :
    chunkPages n l = (List.range ((l.length + n - 1) / n)).map
      (fun j => (l.drop (j * n)).take n) :=
  chunkPagesAux_eq_ranges n hn l.length l le_rfl

theorem chunkPagesAux_join (n : Nat) (hn : 1 ≤ n) :
    ∀ (fuel : Nat) (l : List α), l.length ≤ fuel →
      (chunkPagesAux n fuel l).flatten = l := by
  intro fuel
  induction fuel with
  | zero =>
    intro l hl
    have hnil : l = [] := List.eq_nil_of_length_eq_zero (Nat.le_zero.mp hl)
    subst hnil
    simp [chunkPagesAux]
  | succ fuel ih =>
    intro l hl
    match l with
    | [] => simp [chunkPagesAux]
    | x :: xs =>
      rw [show chunkPagesAux n (fuel + 1) (x :: xs) =
        (x :: xs).take n :: chunkPagesAux n fuel ((x :: xs).drop (max n 1)) from rfl]
      rw [Nat.max_eq_left hn, List.flatten_cons]
      have hdrop : ((x :: xs).drop n).length ≤ fuel := by
        simp only [List.length_drop, List.length_cons]
        simp only [List.length_cons] at hl
        omega
      rw [ih ((x :: xs).drop n) hdrop, List.take_append_drop]

/-- C2: for every list of page items and every pagesPerSheet n at least
1, the selected items are chunked contiguously in document order: the
number of groups is ceil(k/n) computed as (k + n - 1) / n, group j is
exactly the slice [j*n, (j+1)*n) of the selected sequence, every group
other than the last has exactly n items, and the concatenation of all
groups is the selected sequence itself. -/
theorem chunkPages_partition_spec (n : Nat) (hn : 1 ≤ n)
    (pages : List PageItem) :
    (chunkPages n (pages.filter (fun p => p.isSelected))).length =
      ((pages.filter (fun p => p.isSelected)).length + n - 1) / n ∧
    (∀ j, j < ((pages.filter (fun p => p.isSelected)).length + n - 1) / n →
      (chunkPages n (pages.filter (fun p => p.isSelected)))[j]? =
        some (((pages.filter (fun p => p.isSelected)).drop (j * n)).take n)) ∧
    (∀ j, j + 1 < (chunkPages n (pages.filter (fun p => p.isSelected))).length →
      ((chunkPages n (pages.filter (fun p => p.isSelected)))[j]?).map
        List.length = some n) ∧
    (chunkPages n (pages.filter (fun p => p.isSelected))).flatten =
      pages.filter (fun p => p.isSelected) := by
  have hch := chunkPages_eq_ranges n hn (pages.filter (fun p => p.isSelected))
  refine ⟨?_, ?_, ?_, ?_⟩
  · rw [hch, List.length_map, List.length_range]
  · intro j hj
    rw [hch, List.getElem?_map, List.getElem?_range hj]
    rfl
  · intro j hj
    rw [hch] at hj
    simp only [List.length_map, List.length_range] at hj
    rw [hch, List.getElem?_map, List.getElem?_range (by omega)]
    show some ((((pages.filter (fun p => p.isSelected)).drop
      (j * n)).take n).length) = some n
    congr 1
    rw [List.length_take, List.length_drop]
    have hdiv : j + 2 ≤
        ((pages.filter (fun p => p.isSelected)).length + n - 1) / n := hj
    rw [Nat.le_div_iff_mul_le (by omega)] at hdiv
    have hexp : (j + 2) * n = j * n + 2 * n := by ring
    omega
  · exact chunkPagesAux_join n hn _ _ le_rfl

/-- C2 witness: chunking three selected pages two per sheet
reassembles them in order. -/
theorem chunkPages_partition_spec_witness :
    1 ≤ 2 ∧
    (chunkPages 2 ([samplePage, sampleUnselectedPage, sampleRotatedPage,
        samplePage].filter (fun p => p.isSelected))).flatten =
      [samplePage, sampleUnselectedPage, sampleRotatedPage,
        samplePage].filter (fun p => p.isSelected) :=
  ⟨by decide, (chunkPages_partition_spec 2 (by decide)
    [samplePage, sampleUnselectedPage, sampleRotatedPage,
      samplePage]).2.2.2⟩

/-- C3: the grid geometry is the fixed lookup table 1 to (1,1), 2 to
(1,2), 3 to (1,3), 4 to (2,2), 5 to (2,3), 6 to (2,3), 7 to (2,4), 8 to
(2,4), any other value falling back to (1,1), and the cell dimensions
are (sheetWidth - 2*margin)/cols and (sheetHeight - 2*margin)/rows. -/
theorem gridSwitch_lookup_table :
    gridSwitch 1 = (1, 1) ∧ gridSwitch 2 = (1, 2) ∧ gridSwitch 3 = (1, 3) ∧
    gridSwitch 4 = (2, 2) ∧ gridSwitch 5 = (2, 3) ∧ gridSwitch 6 = (2, 3) ∧
    gridSwitch 7 = (2, 4) ∧ gridSwitch 8 = (2, 4) ∧
    (∀ m : Nat, m = 0 ∨ 9 ≤ m → gridSwitch m = (1, 1)) ∧
    (∀ m : Nat,
      cellWidthFor m = (PAGE_WIDTH - 2 * MARGIN) / ((gridSwitch m).1 : ℚ) ∧
      cellHeightFor m = (PAGE_HEIGHT - 2 * MARGIN) / ((gridSwitch m).2 : ℚ)) := by
  refine ⟨rfl, rfl, rfl, rfl, rfl, rfl, rfl, rfl, ?_, ?_⟩
  · intro m hm
    rcases hm with rfl | hm
    · rfl
    · obtain ⟨k, rfl⟩ : ∃ k, m = k + 9 := ⟨m - 9, by omega⟩
      rfl
  · intro m
    constructor
    · unfold cellWidthFor
      congr 1
      ring
    · unfold cellHeightFor
      congr 1
      ring

/-- C3 witness: the out-of-table value 9 falls back to the 1 by 1
grid. -/
theorem gridSwitch_lookup_table_witness :
    ((9 : Nat) = 0 ∨ 9 ≤ (9 : Nat)) ∧ gridSwitch 9 = (1, 1) :=
  ⟨Or.inr (by decide),
    gridSwitch_lookup_table.2.2.2.2.2.2.2.2.1 9 (Or.inr (by decide))⟩

/-- C5: the composited working canvas has the rasterized page's
dimensions swapped to (height, width) exactly when the rotation is 90 or
270 degrees, and keeps (width, height) when it is 0 or 180. -/
theorem processPageImageCanvasSize_swap (pageItem : PageItem)
    (width height : ℚ) :
    ((pageItem.rotation = 90 ∨ pageItem.rotation = 270) →
      processPageImageCanvasSize pageItem width height = (height, width)) ∧
    ((pageItem.rotation = 0 ∨ pageItem.rotation = 180) →
      processPageImageCanvasSize pageItem width height = (width, height)) := by
  constructor
  · intro h
    unfold processPageImageCanvasSize
    rw [if_pos h]
  · intro h
    have hne : ¬(pageItem.rotation = 90 ∨ pageItem.rotation = 270) := by
      rcases h with h | h <;> rw [h] <;> omega
    unfold processPageImageCanvasSize
    rw [if_neg hne]

/-- C5 witness: a page rotated 90 degrees gets a swapped 4 by 3 canvas
for a 3 by 4 raster. -/
theorem processPageImageCanvasSize_swap_witness :
    (sampleRotatedPage.rotation = 90 ∨ sampleRotatedPage.rotation = 270) ∧
    processPageImageCanvasSize sampleRotatedPage 3 4 = (4, 3) :=
  ⟨Or.inl (by decide),
    (processPageImageCanvasSize_swap sampleRotatedPage 3 4).1
      (Or.inl (by decide))⟩

/-- C6: for cell index i (column i mod cols, row i div cols) the drawn
image has size (imageWidth*s, imageHeight*s) for the uniform scale
s = min((cellWidth - 10)/imageWidth, (cellHeight - 10)/imageHeight), is
centered in its cell horizontally at
x = margin + colIndex*cellWidth + (cellWidth - drawWidth)/2, and its row
is converted to the bottom-left-origin output space via
y = sheetHeight - margin - (rowIndex+1)*cellHeight +
(cellHeight - drawHeight)/2; the drawn size preserves the image's aspect
ratio. -/
theorem placement_cell_fit_spec (cols : Nat)
    (cellWidth cellHeight imgWidth imgHeight : ℚ) (i : Nat) :
    placement cols cellWidth cellHeight imgWidth imgHeight i =
      (MARGIN + ((i % cols : Nat) : ℚ) * cellWidth +
        (cellWidth - imgWidth * min ((cellWidth - 10) / imgWidth)
          ((cellHeight - 10) / imgHeight)) / 2,
       PAGE_HEIGHT - MARGIN - (((i / cols : Nat) : ℚ) + 1) * cellHeight +
        (cellHeight - imgHeight * min ((cellWidth - 10) / imgWidth)
          ((cellHeight - 10) / imgHeight)) / 2,
       imgWidth * min ((cellWidth - 10) / imgWidth)
         ((cellHeight - 10) / imgHeight),
       imgHeight * min ((cellWidth - 10) / imgWidth)
         ((cellHeight - 10) / imgHeight)) ∧
    (placement cols cellWidth cellHeight imgWidth imgHeight i).2.2.2 *
        imgWidth =
      (placement cols cellWidth cellHeight imgWidth imgHeight i).2.2.1 *
        imgHeight := by
  constructor
  · rfl
  · show imgHeight * min ((cellWidth - 10) / imgWidth)
        ((cellHeight - 10) / imgHeight) * imgWidth =
      imgWidth * min ((cellWidth - 10) / imgWidth)
        ((cellHeight - 10) / imgHeight) * imgHeight
    ring

/-- C1 counterexample: with zero selected pages the assembler does fail
with "No pages selected", but only after performing the document-creation
encoder call (`PDFDocument.create()` runs before the selection check), so
the claim that no output-encoder call at all precedes the failure is
false at this input. -/
theorem generateFinalPdf_creates_before_empty_check :
    (generateFinalPdf (fun _ => (100, 100)) [sampleUnselectedPage]
      (LayoutSettings.mk 2 false false)).1 =
      Except.error "No pages selected" ∧
    (generateFinalPdf (fun _ => (100, 100)) [sampleUnselectedPage]
      (LayoutSettings.mk 2 false false)).2 =
      [EncoderCall.createDocument] := by
  constructor <;> rfl

/-- C1 (amended): whenever the selected subset is empty, the assembler
fails with the explicit error "No pages selected" before any sheet
addition, image embedding, drawing or serialization; the only encoder
call performed before the failure is the initial document creation. -/
theorem generateFinalPdf_empty_selection (imgDims : PageItem → ℚ × ℚ)
    (pages : List PageItem) (layout : LayoutSettings)
    (h : pages.filter (fun p => p.isSelected) = []) :
    (generateFinalPdf imgDims pages layout).1 =
      Except.error "No pages selected" ∧
    (generateFinalPdf imgDims pages layout).2 =
      [EncoderCall.createDocument] := by
  simp only [generateFinalPdf, h]
  simp

/-- C1 witness: a concrete run with two unselected pages fails with the
explicit error. -/
theorem generateFinalPdf_empty_selection_witness :
    [sampleUnselectedPage, sampleUnselectedPage].filter
      (fun p => p.isSelected) = [] ∧
    (generateFinalPdf (fun _ => (50, 60))
      [sampleUnselectedPage, sampleUnselectedPage]
      (LayoutSettings.mk 4 true false)).1 =
      Except.error "No pages selected" :=
  ⟨by decide, (generateFinalPdf_empty_selection (fun _ => (50, 60))
    [sampleUnselectedPage, sampleUnselectedPage]
    (LayoutSettings.mk 4 true false) (by decide)).1⟩

theorem addPage_mem_sheetCalls {imgDims : PageItem → ℚ × ℚ}
    {layout : LayoutSettings} {chunk : List PageItem} {w h : ℚ}
    (hmem : EncoderCall.addPage w h ∈ sheetCalls imgDims layout chunk) :
    w = PAGE_WIDTH ∧ h = PAGE_HEIGHT := by
  simp only [sheetCalls, List.mem_cons, List.mem_flatMap] at hmem
  rcases hmem with heq | hmem
  · injection heq with h1 h2
    exact ⟨h1, h2⟩
  · exfalso
    obtain ⟨pr, _, hpr⟩ := hmem
    rcases hpr with h1 | h1 | h1
    · exact EncoderCall.noConfusion h1
    · exact EncoderCall.noConfusion h1
    · by_cases hb : layout.showBorders
      · rw [if_pos hb, List.mem_singleton] at h1
        exact EncoderCall.noConfusion h1
      · rw [if_neg hb] at h1
        exact List.not_mem_nil _ h1

/-- C10: every output sheet the assembler creates is a fixed page of
exactly 595.28 by 841.89 points for every input, image dimensions and
layout; the outer margin constant is 20 points; and the inner padding
subtracted from each cell before fitting an image is 10 points (the
uniform scale divides by cellWidth - 10 and cellHeight - 10). -/
theorem generateFinalPdf_fixed_sheet_geometry (imgDims : PageItem → ℚ × ℚ)
    (pages : List PageItem) (layout : LayoutSettings) :
    (∀ w h : ℚ, EncoderCall.addPage w h ∈
        (generateFinalPdf imgDims pages layout).2 →
      w = 59528 / 100 ∧ h = 84189 / 100) ∧
    MARGIN = 20 ∧
    (∀ (cols : Nat) (cw ch iw ihh : ℚ) (i : Nat),
      (placement cols cw ch iw ihh i).2.2 =
        (iw * min ((cw - 10) / iw) ((ch - 10) / ihh),
         ihh * min ((cw - 10) / iw) ((ch - 10) / ihh))) := by
  refine ⟨?_, rfl, fun cols cw ch iw ihh i => rfl⟩
  intro w h hmem
  have hPW : PAGE_WIDTH = 59528 / 100 := by norm_num [PAGE_WIDTH]
  have hPH : PAGE_HEIGHT = 84189 / 100 := by norm_num [PAGE_HEIGHT]
  simp only [generateFinalPdf] at hmem
  by_cases hempty : (pages.filter (fun p => p.isSelected)).length = 0
  · rw [if_pos hempty] at hmem
    simp at hmem
  · rw [if_neg hempty] at hmem
    simp only [List.append_assoc, List.mem_append, List.mem_cons,
      List.mem_singleton, List.mem_flatMap, List.not_mem_nil,
      or_false] at hmem
    rcases hmem with h1 | ⟨chunk, _, hchunk⟩ | h1
    · exact EncoderCall.noConfusion h1
    · obtain ⟨h1, h2⟩ := addPage_mem_sheetCalls hchunk
      rw [h1, h2, hPW, hPH]
      exact ⟨rfl, rfl⟩
    · exact EncoderCall.noConfusion h1

/-- C10 witness: a concrete one-page run emits an addPage call with
exactly the A4 constants. -/
theorem generateFinalPdf_fixed_sheet_geometry_witness :
    EncoderCall.addPage (59528 / 100) (84189 / 100) ∈
      (generateFinalPdf (fun _ => (100, 100)) [samplePage]
        (LayoutSettings.mk 1 false false)).2 ∧
    (59528 / 100 : ℚ) = 59528 / 100 := by
  have hm : EncoderCall.addPage (59528 / 100) (84189 / 100) ∈
      (generateFinalPdf (fun _ => (100, 100)) [samplePage]
        (LayoutSettings.mk 1 false false)).2 := by
    simp [generateFinalPdf, sheetCalls, chunkPages, chunkPagesAux,
      samplePage, PAGE_WIDTH, PAGE_HEIGHT, List.filter]
  exact ⟨hm, ((generateFinalPdf_fixed_sheet_geometry (fun _ => (100, 100))
    [samplePage] (LayoutSettings.mk 1 false false)).1
    (59528 / 100) (84189 / 100) hm).1⟩
